import Mathlib

/-!
Verification of the Slack message exporter (slack_exporter.py).

This file gives a shallow embedding of the parts of the exporter the
specification claims speak about: the link rewriter built on the regex
`<(http[s]?://[^|>]+)(?:\|([^>]*))?>`, the two per-run caches backing
get_user_info and fetch_replies, the message filtering of
fetch_channel_messages and fetch_replies, the filename sanitization of
the save routines, and the channel dispatch heuristic of main.
Strings are modelled as lists of characters; the remote Slack client is
modelled as an explicit oracle returning either a payload or a
SlackApiError; the mutable module-level caches become an explicit state
record threaded through the calls, extended with ghost logs recording
every remote call actually issued so that "at most one remote lookup"
becomes a countable statement.
-/

/-- Strings are modelled as lists of characters. -/
abbrev Str := List Char

/-- One character of the regex character class `[^|>]` inside the url group:
anything but a pipe and a closing angle bracket. -/
def isUrlChar (c : Char) : Bool := c != '|' && c != '>'

/-- One character of the regex character class `[^>]` inside the label group:
anything but a closing angle bracket. -/
def isLabelChar (c : Char) : Bool := c != '>'

/-- Matches a literal character sequence at the front of the input,
returning the remainder on success. -/
def dropLit : Str → Str → Option Str
  | [], s => some s
  | _ :: _, [] => none
  | c :: cs, d :: ds => if c = d then dropLit cs ds else none

/-- Matches the scheme part `http[s]?://` of the link regex, returning the
consumed characters and the remainder.  The regex engine's greedy optional
`[s]?` is deterministic here: when an `s` follows `http`, the alternative of
not taking it would require `:` to match `s` and fails, so taking it when
present is faithful to the backtracking semantics. -/
def matchScheme (s : Str) : Option (Str × Str) :=
  match dropLit ("http".toList) s with
  | none => none
  | some s1 =>
    match s1 with
    | 's' :: s2 =>
      match dropLit ("://".toList) s2 with
      | some s3 => some ("https://".toList, s3)
      | none => none
    | _ =>
      match dropLit ("://".toList) s1 with
      | some s3 => some ("http://".toList, s3)
      | none => none

/-- Attempts to match the link regex `<(http[s]?://[^|>]+)(?:\|([^>]*))?>`
at the start of the input.  On success returns the url group, the optional
label group, and the remaining input after the closing angle bracket.
Greedy matching of `[^|>]+` and `[^>]*` is deterministic: shrinking either
run only exposes characters the following literal cannot match, so the
maximal-run reading below is faithful to the regex engine. -/
def matchLink : Str → Option (Str × Option Str × Str)
  | [] => none
  | c :: s =>
    if c = '<' then
      match matchScheme s with
      | none => none
      | some (pre, s1) =>
        let run := s1.takeWhile isUrlChar
        let s2 := s1.dropWhile isUrlChar
        if run = [] then none
        else
          match s2 with
          | '>' :: r => some (pre ++ run, none, r)
          | '|' :: r =>
            let lab := r.takeWhile isLabelChar
            match r.dropWhile isLabelChar with
            | '>' :: r3 => some (pre ++ run, some lab, r3)
            | _ => none
          | _ => none
    else none

/-- The display text chosen by replace_link: the label group when it
matched and is nonempty (Python truthiness of match.group(2)), otherwise
the url group. -/
def display_text_of (url : Str) (label : Option Str) : Str :=
  match label with
  | some l => if l = [] then url else l
  | none => url

/-- The replacement computed for one regex match, following replace_link
inside parse_links: html mode emits an anchor tag with the url as target
and the display text as content, any other mode emits `display (url)`. -/
def replace_link (output_type : Str) (url : Str) (label : Option Str) : Str :=
  if output_type = "html".toList then
    "<a href=\"".toList ++ url ++ "\">".toList ++ display_text_of url label ++ "</a>".toList
  else
    display_text_of url label ++ " (".toList ++ url ++ ")".toList

/-- Fuelled scanner implementing re.sub for the link regex: at each position
either replace a leftmost match and continue after it, or keep the character
and move one position right.  The fuel only bounds the recursion; it never
runs out when it is at least the length of the input, which the unfolding
lemmas below prove. -/
def link_sub_fuel (output_type : Str) : Nat → Str → Str
  | _, [] => []
  | 0, s => s
  | fuel + 1, c :: cs =>
    match matchLink (c :: cs) with
    | some (url, label, rest) =>
      replace_link output_type url label ++ link_sub_fuel output_type fuel rest
    | none => c :: link_sub_fuel output_type fuel cs

/-- parse_links: substitutes every occurrence of the Slack link markup in
the text, as link_pattern.sub(replace_link, text). -/
def parse_links (text : Str) (output_type : Str) : Str :=
  link_sub_fuel output_type text.length text

/-- Holds when no suffix of the input matches the link regex, i.e. the
input contains no occurrence of the link markup pattern. -/
def no_link_markup : Str → Bool
  | [] => true
  | c :: cs => (matchLink (c :: cs)).isNone && no_link_markup cs

/-- The raw text of the optional label group inside a matched span: nothing
when absent, a pipe followed by the label when present. -/
def labelPart : Option Str → Str
  | none => []
  | some lab => '|' :: lab

/-- The exact span of input text consumed by a match with the given url and
label groups. -/
def matchSpan (url : Str) (label : Option Str) : Str :=
  '<' :: (url ++ labelPart label ++ ['>'])

/-- One segment of the substitution decomposition of an input string: a
character left untouched, or one regex match with its url and optional
label groups. -/
inductive Seg where
  | lit : Char → Seg
  | link : Str → Option Str → Seg
deriving DecidableEq

/-- Fuelled decomposition of the input into untouched characters and
matches, scanning exactly as link_sub_fuel does. -/
def scan_segs_fuel : Nat → Str → List Seg
  | _, [] => []
  | 0, _ => []
  | fuel + 1, c :: cs =>
    match matchLink (c :: cs) with
    | some (url, label, rest) => Seg.link url label :: scan_segs_fuel fuel rest
    | none => Seg.lit c :: scan_segs_fuel fuel cs

/-- The decomposition of an input string into untouched characters and
matched spans. -/
def scan_segs (s : Str) : List Seg := scan_segs_fuel s.length s

/-- The original input text a segment occupies. -/
def origSeg : Seg → Str
  | Seg.lit c => [c]
  | Seg.link url label => matchSpan url label

/-- The text a segment contributes to the output of the substitution. -/
def rendSeg (output_type : Str) : Seg → Str
  | Seg.lit c => [c]
  | Seg.link url label => replace_link output_type url label

/-- Concatenation of the images of the segments under a rendering
function. -/
def flatStr (f : Seg → Str) : List Seg → Str
  | [] => []
  | sg :: rest => f sg ++ flatStr f rest

/-- A Slack API error; its payload is irrelevant to the model. -/
inductive SlackApiError where
  | mk : SlackApiError
deriving DecidableEq

/-- The fields of a user object consulted by get_user_info; a field absent
from the underlying dict is none, as dict.get returns None. -/
structure SlackUser where
  real_name : Option Str
  display_name : Option Str
  name : Option Str
deriving DecidableEq

/-- Python truthiness choice `a or b` on optional strings: a unless it is
None or the empty string. -/
def pyOr (a b : Option Str) : Option Str :=
  match a with
  | some s => if s = [] then b else some s
  | none => b

/-- A message record with the fields the exporter reads; a field absent
from the underlying dict is none.  The Python test `'subtype' in msg`
becomes `subtype.isSome`. -/
structure Message where
  ts : Str
  user : Str
  text : Str
  thread_ts : Option Str
  subtype : Option Str
deriving DecidableEq

/-- Lookup in an association list modelling a Python dict, most recent
binding first. -/
def dict_get (k : Str) : List (Str × α) → Option α
  | [] => none
  | (k2, v) :: rest => if k = k2 then some v else dict_get k rest

/-- The per-run mutable globals of the exporter: the user cache and the
message cache, extended with ghost logs recording the key of every remote
call actually issued, so that remote lookups can be counted. -/
structure ExporterState where
  user_cache : List (Str × Option Str)
  message_cache : List (Str × List Message)
  users_info_calls : List Str
  replies_calls : List Str
deriving DecidableEq

/-- The state at the start of a run: both caches empty, no remote calls
issued. -/
def initState : ExporterState :=
  { user_cache := [], message_cache := [], users_info_calls := [], replies_calls := [] }

/-- get_user_info: return the cached value when the user id is in the
cache; otherwise call users_info (logged), derive the display name with
Python `or` over real_name, display_name and name, store it in the cache
and return it; on SlackApiError return the sentinel "Unknown User" without
touching the cache. -/
def get_user_info (client : Str → Except SlackApiError SlackUser) (st : ExporterState)
    (user_id : Str) : Option Str × ExporterState :=
  match dict_get user_id st.user_cache with
  | some v => (v, st)
  | none =>
    let st1 := { st with users_info_calls := st.users_info_calls ++ [user_id] }
    match client user_id with
    | Except.ok user =>
      let user_name := pyOr user.real_name (pyOr user.display_name user.name)
      (user_name, { st1 with user_cache := (user_id, user_name) :: st1.user_cache })
    | Except.error _ => (some ("Unknown User".toList), st1)

/-- fetch_replies: return the cached list when the thread timestamp is in
the message cache; otherwise call conversations_replies (logged), drop the
first returned message (the thread starter), keep only replies without a
subtype, store the result in the cache and return it; on SlackApiError
return the empty list without touching the cache. -/
def fetch_replies (client : Str → Str → Except SlackApiError (List Message))
    (st : ExporterState) (channel_id : Str) (thread_ts : Str) :
    List Message × ExporterState :=
  match dict_get thread_ts st.message_cache with
  | some v => (v, st)
  | none =>
    let st1 := { st with replies_calls := st.replies_calls ++ [thread_ts] }
    match client channel_id thread_ts with
    | Except.ok msgs =>
      let user_replies := (msgs.drop 1).filter (fun r => r.subtype.isNone)
      (user_replies, { st1 with message_cache := (thread_ts, user_replies) :: st1.message_cache })
    | Except.error _ => ([], st1)

/-- fetch_channel_messages: fetch one page of history and keep only the
messages without a subtype; on SlackApiError return the empty list. -/
def fetch_channel_messages (client : Str → Nat → Except SlackApiError (List Message))
    (channel_id : Str) (limit : Nat) : List Message :=
  match client channel_id limit with
  | Except.ok msgs => msgs.filter (fun m => m.subtype.isNone)
  | Except.error _ => []

/-- Processes a sequence of user-info lookups in order through the shared
state, as the per-message loops of the save routines do. -/
def run_user_lookups (client : Str → Except SlackApiError SlackUser) (st : ExporterState) :
    List Str → List (Option Str) × ExporterState
  | [] => ([], st)
  | k :: ks =>
    let p := get_user_info client st k
    let q := run_user_lookups client p.2 ks
    (p.1 :: q.1, q.2)

/-- Processes a sequence of thread-reply lookups in order through the
shared state, as the per-message loops of the save routines do. -/
def run_reply_lookups (client : Str → Str → Except SlackApiError (List Message))
    (channel_id : Str) (st : ExporterState) : List Str → List (List Message) × ExporterState
  | [] => ([], st)
  | t :: ts =>
    let p := fetch_replies client st channel_id t
    let q := run_reply_lookups client channel_id p.2 ts
    (p.1 :: q.1, q.2)

/-- The character filter of the filename sanitization: alphanumeric, space,
hyphen or underscore (ASCII model of str.isalnum). -/
def keepChar (c : Char) : Bool := c.isAlphanum || c == ' ' || c == '-' || c == '_'

/-- Python str.rstrip with no argument: remove trailing whitespace. -/
def rstrip (s : Str) : Str := (s.reverse.dropWhile Char.isWhitespace).reverse

/-- The sanitized conversation name computed identically in
save_messages_to_txt and save_messages_to_html: keep alphanumerics, spaces,
hyphens and underscores, then strip trailing whitespace. -/
def sanitized_conversation_name (name : Str) : Str := rstrip (name.filter keepChar)

/-- Python str.startswith on the model strings. -/
def startswith (s : Str) (p : Str) : Bool := List.isPrefixOf p s

/-- The two channel lookup paths main can take. -/
inductive FetchPath where
  | byId : FetchPath
  | byName : FetchPath
deriving DecidableEq

/-- The channel lookup dispatch in main: fetch by id when the argument
starts with C or D, otherwise fetch by name. -/
def main_channel_dispatch (arg : Str) : FetchPath :=
  if startswith arg ("C".toList) || startswith arg ("D".toList) then FetchPath.byId
  else FetchPath.byName

/-- Number of occurrences of a key in a list of keys; applied to the ghost
call logs it counts how many remote lookups were issued for that key. -/
def countKey (k : Str) : List Str → Nat
  | [] => 0
  | x :: xs => (if x = k then 1 else 0) + countKey k xs

/-- The values returned for the calls made with the given key, in call
order: the keys and the returned values are walked in lockstep and the
values at positions whose key matches are collected. -/
def resultsFor (k : Str) : List Str → List α → List α
  | [], _ => []
  | _ :: _, [] => []
  | k2 :: ks, v :: vs =>
    if k2 = k then v :: resultsFor k ks vs else resultsFor k ks vs

/-- The display name get_user_info derives from a successfully fetched
user object. -/
def expectedName (u : SlackUser) : Option Str :=
  pyOr u.real_name (pyOr u.display_name u.name)

/-- The reply list fetch_replies derives from a successfully fetched
thread: drop the thread starter, keep replies without a subtype. -/
def expectedReplies (ms : List Message) : List Message :=
  (ms.drop 1).filter (fun r => r.subtype.isNone)

/-- A sample thread-starter message, used by concrete witnesses. -/
def sampleParent : Message :=
  { ts := "100.1".toList, user := "U1".toList, text := "root".toList,
    thread_ts := some ("100.1".toList), subtype := none }

/-- A sample ordinary reply message, used by concrete witnesses. -/
def sampleReply : Message :=
  { ts := "100.2".toList, user := "U2".toList, text := "hi".toList,
    thread_ts := some ("100.1".toList), subtype := none }

/-- A sample system message carrying a subtype, used by concrete
witnesses. -/
def sampleSystem : Message :=
  { ts := "100.3".toList, user := "U3".toList, text := "joined".toList,
    thread_ts := some ("100.1".toList), subtype := some ("channel_join".toList) }

/-- A sample user object, used by concrete witnesses. -/
def sampleUser : SlackUser :=
  { real_name := some ("Ada".toList), display_name := none, name := some ("ada".toList) }

/-- A sample users_info client that always succeeds, used by concrete
witnesses. -/
def sampleUserOkClient : Str → Except SlackApiError SlackUser :=
  fun _ => Except.ok sampleUser

/-- A sample conversations_replies client that always succeeds, used by
concrete witnesses. -/
def sampleRepClient : Str → Str → Except SlackApiError (List Message) :=
  fun _ _ => Except.ok [sampleParent, sampleReply, sampleSystem]

/-- A sample conversations_history client that always succeeds, used by
concrete witnesses. -/
def sampleHistClient : Str → Nat → Except SlackApiError (List Message) :=
  fun _ _ => Except.ok [sampleSystem, sampleReply, sampleParent]

/-- A users_info client that always raises, used by the failure
counterexample and witnesses. -/
def failUserClient : Str → Except SlackApiError SlackUser :=
  fun _ => Except.error SlackApiError.mk

/-- A conversations_replies client that always raises, used by the failure
counterexample and witnesses. -/
def failRepClient : Str → Str → Except SlackApiError (List Message) :=
  fun _ _ => Except.error SlackApiError.mk

/-- A conversations_history client that always raises, used by concrete
witnesses. -/
def failHistClient : Str → Nat → Except SlackApiError (List Message) :=
  fun _ _ => Except.error SlackApiError.mk

/-! Structural lemmas about the matcher. -/

theorem dropLit_eq_append (lit : Str) :
    ∀ s r : Str, dropLit lit s = some r → s = lit ++ r := by
  induction lit with
  | nil =>
    intro s r h
    simp [dropLit] at h
    simp [h]
  | cons c cs ih =>
    intro s r h
    cases s with
    | nil => simp [dropLit] at h
    | cons d ds =>
      by_cases hc : c = d
      · subst hc
        simp only [dropLit, if_pos rfl] at h
        simp [ih ds r h]
      · simp [dropLit, hc] at h

theorem matchScheme_eq_append (s pre s1 : Str) (h : matchScheme s = some (pre, s1)) :
    s = pre ++ s1 ∧ pre ≠ [] := by
  unfold matchScheme at h
  split at h
  · exact absurd h (by simp)
  next t h4 =>
    have ht := dropLit_eq_append _ _ _ h4
    split at h
    next s2 =>
      split at h
      next s3 h5 =>
        have ht2 := dropLit_eq_append _ _ _ h5
        simp only [Option.some.injEq, Prod.mk.injEq] at h
        obtain ⟨h1, h2⟩ := h
        subst h1 h2 ht2
        refine ⟨?_, by simp⟩
        rw [ht]
        rfl
      · exact absurd h (by simp)
    next hne =>
      split at h
      next s3 h5 =>
        have ht2 := dropLit_eq_append _ _ _ h5
        simp only [Option.some.injEq, Prod.mk.injEq] at h
        obtain ⟨h1, h2⟩ := h
        subst h1 h2 ht2
        refine ⟨?_, by simp⟩
        rw [ht]
        rfl
      · exact absurd h (by simp)

theorem matchLink_eq_span (s u : Str) (l : Option Str) (r : Str)
    (h : matchLink s = some (u, l, r)) : s = matchSpan u l ++ r := by
  cases s with
  | nil => simp [matchLink] at h
  | cons c s0 =>
    simp only [matchLink] at h
    split at h
    case isTrue hc =>
      subst hc
      split at h
      · exact absurd h (by simp)
      next pre s1 hsch =>
        obtain ⟨hs0, hpre⟩ := matchScheme_eq_append s0 pre s1 hsch
        split at h
        · exact absurd h (by simp)
        next hrun =>
          split at h
          next r0 hdrop =>
            simp only [Option.some.injEq, Prod.mk.injEq] at h
            obtain ⟨hu, hl, hr⟩ := h
            subst hu hl hr
            have hsplit := List.takeWhile_append_dropWhile (p := isUrlChar) (l := s1)
            rw [hdrop] at hsplit
            conv_lhs => rw [hs0, ← hsplit]
            simp [matchSpan, labelPart]
          next r1 hdrop =>
            split at h
            next r3 hdrop2 =>
              simp only [Option.some.injEq, Prod.mk.injEq] at h
              obtain ⟨hu, hl, hr⟩ := h
              subst hu hl hr
              have hsplit := List.takeWhile_append_dropWhile (p := isUrlChar) (l := s1)
              rw [hdrop] at hsplit
              have hsplit2 := List.takeWhile_append_dropWhile (p := isLabelChar) (l := r1)
              rw [hdrop2] at hsplit2
              conv_lhs => rw [hs0, ← hsplit, ← hsplit2]
              simp [matchSpan, labelPart]
            · exact absurd h (by simp)
          next h1 h2 => exact absurd h (by simp)
    case isFalse => exact absurd h (by simp)

theorem matchLink_length_lt (s u : Str) (l : Option Str) (r : Str)
    (h : matchLink s = some (u, l, r)) : r.length < s.length := by
  have hs := matchLink_eq_span s u l r h
  rw [hs]
  simp [matchSpan]
  omega

theorem link_sub_fuel_irrel (ot : Str) :
    ∀ f1 : Nat, ∀ s : Str, ∀ f2 : Nat, s.length ≤ f1 → s.length ≤ f2 →
      link_sub_fuel ot f1 s = link_sub_fuel ot f2 s := by
  intro f1
  induction f1 with
  | zero =>
    intro s f2 h1 h2
    have hs : s = [] := List.eq_nil_of_length_eq_zero (Nat.le_zero.mp h1)
    subst hs
    cases f2 <;> simp [link_sub_fuel]
  | succ f ih =>
    intro s f2 h1 h2
    cases s with
    | nil => cases f2 <;> simp [link_sub_fuel]
    | cons c cs =>
      cases f2 with
      | zero => simp at h2
      | succ f2 =>
        simp only [link_sub_fuel]
        cases hm : matchLink (c :: cs) with
        | none =>
          simp only [List.length_cons] at h1 h2
          exact congrArg (c :: ·) (ih cs f2 (by omega) (by omega))
        | some t =>
          obtain ⟨u, l, r⟩ := t
          have hlt := matchLink_length_lt _ u l r hm
          simp only [List.length_cons] at h1 h2 hlt
          exact congrArg (replace_link ot u l ++ ·) (ih r f2 (by omega) (by omega))

theorem scan_segs_fuel_irrel :
    ∀ f1 : Nat, ∀ s : Str, ∀ f2 : Nat, s.length ≤ f1 → s.length ≤ f2 →
      scan_segs_fuel f1 s = scan_segs_fuel f2 s := by
  intro f1
  induction f1 with
  | zero =>
    intro s f2 h1 h2
    have hs : s = [] := List.eq_nil_of_length_eq_zero (Nat.le_zero.mp h1)
    subst hs
    cases f2 <;> simp [scan_segs_fuel]
  | succ f ih =>
    intro s f2 h1 h2
    cases s with
    | nil => cases f2 <;> simp [scan_segs_fuel]
    | cons c cs =>
      cases f2 with
      | zero => simp at h2
      | succ f2 =>
        simp only [scan_segs_fuel]
        cases hm : matchLink (c :: cs) with
        | none =>
          simp only [List.length_cons] at h1 h2
          exact congrArg (Seg.lit c :: ·) (ih cs f2 (by omega) (by omega))
        | some t =>
          obtain ⟨u, l, r⟩ := t
          have hlt := matchLink_length_lt _ u l r hm
          simp only [List.length_cons] at h1 h2 hlt
          exact congrArg (Seg.link u l :: ·) (ih r f2 (by omega) (by omega))

theorem parse_links_nil (ot : Str) : parse_links [] ot = [] := rfl

theorem parse_links_of_match (ot s u : Str) (l : Option Str) (r : Str)
    (h : matchLink s = some (u, l, r)) :
    parse_links s ot = replace_link ot u l ++ parse_links r ot := by
  cases s with
  | nil => simp [matchLink] at h
  | cons c cs =>
    have hlt := matchLink_length_lt _ u l r h
    simp only [List.length_cons] at hlt
    show link_sub_fuel ot (c :: cs).length (c :: cs) = _
    simp only [List.length_cons, link_sub_fuel, h]
    exact congrArg (replace_link ot u l ++ ·)
      (link_sub_fuel_irrel ot cs.length r r.length (by omega) le_rfl)

theorem parse_links_of_nomatch (ot : Str) (c : Char) (cs : Str)
    (h : matchLink (c :: cs) = none) :
    parse_links (c :: cs) ot = c :: parse_links cs ot := by
  show link_sub_fuel ot (c :: cs).length (c :: cs) = _
  simp only [List.length_cons, link_sub_fuel, h]
  rfl

theorem scan_segs_nil : scan_segs [] = [] := rfl

theorem scan_segs_of_match (s u : Str) (l : Option Str) (r : Str)
    (h : matchLink s = some (u, l, r)) :
    scan_segs s = Seg.link u l :: scan_segs r := by
  cases s with
  | nil => simp [matchLink] at h
  | cons c cs =>
    have hlt := matchLink_length_lt _ u l r h
    simp only [List.length_cons] at hlt
    show scan_segs_fuel (c :: cs).length (c :: cs) = _
    simp only [List.length_cons, scan_segs_fuel, h]
    exact congrArg (Seg.link u l :: ·)
      (scan_segs_fuel_irrel cs.length r r.length (by omega) le_rfl)

theorem scan_segs_of_nomatch (c : Char) (cs : Str) (h : matchLink (c :: cs) = none) :
    scan_segs (c :: cs) = Seg.lit c :: scan_segs cs := by
  show scan_segs_fuel (c :: cs).length (c :: cs) = _
  simp only [List.length_cons, scan_segs_fuel, h]
  rfl

/-! Claim theorems about the link rewriter. -/

/-- C3: for every input string containing no occurrence of the link markup
pattern (no suffix matches the regex), and for every output mode,
parse_links returns the input unchanged. -/
theorem c3_no_markup_unchanged (s : Str) (h : no_link_markup s = true) (ot : Str) :
    parse_links s ot = s := by
  induction s with
  | nil => rfl
  | cons c cs ih =>
    simp only [no_link_markup, Bool.and_eq_true, Option.isNone_iff_eq_none] at h
    rw [parse_links_of_nomatch ot c cs h.1, ih h.2]

/-- Witness for C3 at a concrete markup-free input. -/
theorem c3_witness :
    no_link_markup ("see http://a.b and more".toList) = true ∧
      parse_links ("see http://a.b and more".toList) ("txt".toList) =
        "see http://a.b and more".toList :=
  ⟨by decide,
    c3_no_markup_unchanged ("see http://a.b and more".toList) (by decide) ("txt".toList)⟩

/-- C4: for every input string and every output mode, the substitution only
replaces matched spans and leaves every character outside them unchanged
and in order: the scan decomposes the input into segments, the original
texts of the segments concatenate back to the input, and the output of
parse_links is the concatenation of the very same segments with each
matched span replaced by its replacement and each unmatched character kept
as itself. -/
theorem c4_frame_outside_spans (ot : Str) (s : Str) :
    flatStr origSeg (scan_segs s) = s ∧
      flatStr (rendSeg ot) (scan_segs s) = parse_links s ot := by
  suffices H : ∀ n : Nat, ∀ s : Str, s.length ≤ n →
      flatStr origSeg (scan_segs s) = s ∧
        flatStr (rendSeg ot) (scan_segs s) = parse_links s ot by
    exact H s.length s le_rfl
  intro n
  induction n with
  | zero =>
    intro s h
    have hs : s = [] := List.eq_nil_of_length_eq_zero (Nat.le_zero.mp h)
    subst hs
    exact ⟨rfl, rfl⟩
  | succ n ih =>
    intro s hle
    cases s with
    | nil => exact ⟨rfl, rfl⟩
    | cons c cs =>
      simp only [List.length_cons] at hle
      cases hm : matchLink (c :: cs) with
      | none =>
        obtain ⟨ih1, ih2⟩ := ih cs (by omega)
        rw [scan_segs_of_nomatch c cs hm, parse_links_of_nomatch ot c cs hm]
        constructor
        · simp [flatStr, origSeg, ih1]
        · simp [flatStr, rendSeg, ih2]
      | some t =>
        obtain ⟨u, l, r⟩ := t
        have hlt := matchLink_length_lt _ u l r hm
        simp only [List.length_cons] at hlt
        obtain ⟨ih1, ih2⟩ := ih r (by omega)
        rw [scan_segs_of_match _ u l r hm, parse_links_of_match ot _ u l r hm]
        constructor
        · simp only [flatStr, origSeg, ih1]
          exact (matchLink_eq_span _ u l r hm).symm
        · simp only [flatStr, rendSeg, ih2]

/-- C5: in plain mode a labeled link is replaced by `label (url)`: whenever
the input starts with a match whose label is present and nonempty, the
plain-mode output is the label, a space and the url in parentheses,
followed by the rewriting of the rest of the input. -/
theorem c5_plain_labeled (s u lab r : Str)
    (h : matchLink s = some (u, some lab, r)) (hl : lab ≠ []) :
    parse_links s ("txt".toList) =
      lab ++ " (".toList ++ u ++ ")".toList ++ parse_links r ("txt".toList) := by
  rw [parse_links_of_match _ _ u (some lab) r h]
  simp only [replace_link, display_text_of, if_neg hl]
  rw [if_neg (by decide)]

/-- Witness for C5: an input containing `<https://a.b|label>` rewrites in
plain mode to `label (https://a.b)` in place of the span. -/
theorem c5_witness :
    parse_links ("<https://a.b|label> ok".toList) ("txt".toList) =
      "label".toList ++ " (".toList ++ "https://a.b".toList ++ ")".toList ++
        parse_links (" ok".toList) ("txt".toList) :=
  c5_plain_labeled ("<https://a.b|label> ok".toList) ("https://a.b".toList)
    ("label".toList) (" ok".toList) (by decide) (by decide)

/-- C6: in markup mode an unlabeled link produces an anchor whose href
target and content are both the url: whenever the input starts with a
match without a label group, the html-mode output is that anchor element
followed by the rewriting of the rest of the input. -/
theorem c6_markup_unlabeled (s u r : Str) (h : matchLink s = some (u, none, r)) :
    parse_links s ("html".toList) =
      "<a href=\"".toList ++ u ++ "\">".toList ++ u ++ "</a>".toList ++
        parse_links r ("html".toList) := by
  rw [parse_links_of_match _ _ u none r h]
  simp only [replace_link, display_text_of, if_pos rfl]
  simp [List.append_assoc]

/-- Witness for C6: an input containing `<https://a.b>` rewrites in markup
mode to an anchor whose target and content are both `https://a.b`. -/
theorem c6_witness :
    parse_links ("<https://a.b> ok".toList) ("html".toList) =
      "<a href=\"".toList ++ "https://a.b".toList ++ "\">".toList ++
        "https://a.b".toList ++ "</a>".toList ++
        parse_links (" ok".toList) ("html".toList) :=
  c6_markup_unlabeled ("<https://a.b> ok".toList) ("https://a.b".toList)
    (" ok".toList) (by decide)

/-- C9: an empty label is treated the same as an absent one: whenever the
input starts with a match whose label group matched the empty string,
plain mode yields `url (url)` and markup mode yields an anchor whose
target and content are both the url, each followed by the rewriting of the
rest of the input. -/
theorem c9_empty_label_like_absent (s u r : Str)
    (h : matchLink s = some (u, some [], r)) :
    parse_links s ("txt".toList) =
      u ++ " (".toList ++ u ++ ")".toList ++ parse_links r ("txt".toList) ∧
    parse_links s ("html".toList) =
      "<a href=\"".toList ++ u ++ "\">".toList ++ u ++ "</a>".toList ++
        parse_links r ("html".toList) := by
  constructor
  · rw [parse_links_of_match _ _ u (some []) r h]
    simp only [replace_link, display_text_of, if_pos rfl]
    rw [if_neg (by decide)]
    simp [List.append_assoc]
  · rw [parse_links_of_match _ _ u (some []) r h]
    simp only [replace_link, display_text_of, if_pos rfl]
    simp [List.append_assoc]

/-- Witness for C9: an input containing `<https://x.y|>` rewrites in plain
mode to `https://x.y (https://x.y)` and in markup mode to an anchor whose
target and content are both the url. -/
theorem c9_witness :
    parse_links ("<https://x.y|>".toList) ("txt".toList) =
      "https://x.y".toList ++ " (".toList ++ "https://x.y".toList ++ ")".toList ++
        parse_links ([] : Str) ("txt".toList) ∧
    parse_links ("<https://x.y|>".toList) ("html".toList) =
      "<a href=\"".toList ++ "https://x.y".toList ++ "\">".toList ++
        "https://x.y".toList ++ "</a>".toList ++
        parse_links ([] : Str) ("html".toList) :=
  c9_empty_label_like_absent ("<https://x.y|>".toList) ("https://x.y".toList)
    ([] : Str) (by decide)

/-! Lemmas about the caches and the remote call logs. -/

theorem countKey_append (k : Str) (a b : List Str) :
    countKey k (a ++ b) = countKey k a + countKey k b := by
  induction a with
  | nil => simp [countKey]
  | cons x xs ih => simp [countKey, ih]; omega

theorem get_user_info_cached (client : Str → Except SlackApiError SlackUser)
    (st : ExporterState) (k : Str) (v : Option Str)
    (h : dict_get k st.user_cache = some v) :
    get_user_info client st k = (v, st) := by
  simp [get_user_info, h]

theorem get_user_info_ok (client : Str → Except SlackApiError SlackUser)
    (st : ExporterState) (k : Str) (u : SlackUser)
    (hc : dict_get k st.user_cache = none) (hk : client k = Except.ok u) :
    get_user_info client st k =
      (expectedName u,
        { st with user_cache := (k, expectedName u) :: st.user_cache,
                  users_info_calls := st.users_info_calls ++ [k] }) := by
  simp [get_user_info, hc, hk, expectedName]

theorem get_user_info_err (client : Str → Except SlackApiError SlackUser)
    (st : ExporterState) (k : Str)
    (hc : dict_get k st.user_cache = none) (hk : client k = Except.error SlackApiError.mk) :
    get_user_info client st k =
      (some ("Unknown User".toList),
        { st with users_info_calls := st.users_info_calls ++ [k] }) := by
  simp [get_user_info, hc, hk]

theorem get_user_info_other (client : Str → Except SlackApiError SlackUser)
    (st : ExporterState) (k k2 : Str) (hne : k2 ≠ k) :
    dict_get k (get_user_info client st k2).2.user_cache = dict_get k st.user_cache
      ∧ countKey k (get_user_info client st k2).2.users_info_calls
          = countKey k st.users_info_calls := by
  unfold get_user_info
  cases hc : dict_get k2 st.user_cache with
  | some v => simp
  | none =>
    cases hcl : client k2 with
    | ok u => simp [dict_get, countKey_append, countKey, Ne.symm hne, hne]
    | error e => simp [countKey_append, countKey, hne]

theorem fetch_replies_cached (client : Str → Str → Except SlackApiError (List Message))
    (st : ExporterState) (ch t : Str) (v : List Message)
    (h : dict_get t st.message_cache = some v) :
    fetch_replies client st ch t = (v, st) := by
  simp [fetch_replies, h]

theorem fetch_replies_ok (client : Str → Str → Except SlackApiError (List Message))
    (st : ExporterState) (ch t : Str) (ms : List Message)
    (hc : dict_get t st.message_cache = none) (hk : client ch t = Except.ok ms) :
    fetch_replies client st ch t =
      (expectedReplies ms,
        { st with message_cache := (t, expectedReplies ms) :: st.message_cache,
                  replies_calls := st.replies_calls ++ [t] }) := by
  simp [fetch_replies, hc, hk, expectedReplies]

theorem fetch_replies_err (client : Str → Str → Except SlackApiError (List Message))
    (st : ExporterState) (ch t : Str)
    (hc : dict_get t st.message_cache = none)
    (hk : client ch t = Except.error SlackApiError.mk) :
    fetch_replies client st ch t =
      ([], { st with replies_calls := st.replies_calls ++ [t] }) := by
  simp [fetch_replies, hc, hk]

theorem fetch_replies_other (client : Str → Str → Except SlackApiError (List Message))
    (st : ExporterState) (ch t t2 : Str) (hne : t2 ≠ t) :
    dict_get t (fetch_replies client st ch t2).2.message_cache = dict_get t st.message_cache
      ∧ countKey t (fetch_replies client st ch t2).2.replies_calls
          = countKey t st.replies_calls := by
  unfold fetch_replies
  cases hc : dict_get t2 st.message_cache with
  | some v => simp
  | none =>
    cases hcl : client ch t2 with
    | ok ms => simp [dict_get, countKey_append, countKey, Ne.symm hne, hne]
    | error e => simp [countKey_append, countKey, hne]

theorem run_user_invariant (client : Str → Except SlackApiError SlackUser) (k : Str)
    (u : SlackUser) (hk : client k = Except.ok u) :
    ∀ ks : List Str, ∀ st : ExporterState,
      (dict_get k st.user_cache = none ∧ countKey k st.users_info_calls = 0
        ∨ dict_get k st.user_cache = some (expectedName u)
            ∧ countKey k st.users_info_calls = 1) →
      countKey k (run_user_lookups client st ks).2.users_info_calls ≤ 1
        ∧ ∀ v ∈ resultsFor k ks (run_user_lookups client st ks).1, v = expectedName u := by
  intro ks
  induction ks with
  | nil =>
    intro st hinv
    refine ⟨?_, ?_⟩
    · rcases hinv with ⟨_, h0⟩ | ⟨_, h1⟩
      · simp [run_user_lookups, h0]
      · simp [run_user_lookups, h1]
    · intro v hv
      simp [resultsFor, run_user_lookups] at hv
  | cons k2 ks ih =>
    intro st hinv
    by_cases hk2 : k2 = k
    · subst hk2
      rcases hinv with ⟨hc, h0⟩ | ⟨hc, h1⟩
      · have hstep := get_user_info_ok client st k2 u hc hk
        have hnext := ih
          { st with user_cache := (k2, expectedName u) :: st.user_cache,
                    users_info_calls := st.users_info_calls ++ [k2] }
          (Or.inr ⟨by simp [dict_get], by simp [countKey_append, countKey, h0]⟩)
        refine ⟨?_, ?_⟩
        · simpa [run_user_lookups, hstep] using hnext.1
        · intro v hv
          simp only [run_user_lookups, hstep, resultsFor, if_pos rfl] at hv
          rcases List.mem_cons.mp hv with hv1 | hv2
          · exact hv1
          · exact hnext.2 v hv2
      · have hstep := get_user_info_cached client st k2 (expectedName u) hc
        have hnext := ih st (Or.inr ⟨hc, h1⟩)
        refine ⟨?_, ?_⟩
        · simpa [run_user_lookups, hstep] using hnext.1
        · intro v hv
          simp only [run_user_lookups, hstep, resultsFor, if_pos rfl] at hv
          rcases List.mem_cons.mp hv with hv1 | hv2
          · exact hv1
          · exact hnext.2 v hv2
    · have hother := get_user_info_other client st k k2 hk2
      have hnext := ih (get_user_info client st k2).2 (by
        rcases hinv with ⟨hc, h0⟩ | ⟨hc, h1⟩
        · exact Or.inl ⟨hother.1.trans hc, hother.2.trans h0⟩
        · exact Or.inr ⟨hother.1.trans hc, hother.2.trans h1⟩)
      refine ⟨?_, ?_⟩
      · simpa [run_user_lookups] using hnext.1
      · intro v hv
        simp only [run_user_lookups, resultsFor, if_neg hk2] at hv
        exact hnext.2 v hv

theorem run_reply_invariant (client : Str → Str → Except SlackApiError (List Message))
    (ch t : Str) (ms : List Message) (hk : client ch t = Except.ok ms) :
    ∀ ts : List Str, ∀ st : ExporterState,
      (dict_get t st.message_cache = none ∧ countKey t st.replies_calls = 0
        ∨ dict_get t st.message_cache = some (expectedReplies ms)
            ∧ countKey t st.replies_calls = 1) →
      countKey t (run_reply_lookups client ch st ts).2.replies_calls ≤ 1
        ∧ ∀ v ∈ resultsFor t ts (run_reply_lookups client ch st ts).1,
            v = expectedReplies ms := by
  intro ts
  induction ts with
  | nil =>
    intro st hinv
    refine ⟨?_, ?_⟩
    · rcases hinv with ⟨_, h0⟩ | ⟨_, h1⟩
      · simp [run_reply_lookups, h0]
      · simp [run_reply_lookups, h1]
    · intro v hv
      simp [resultsFor, run_reply_lookups] at hv
  | cons t2 ts ih =>
    intro st hinv
    by_cases ht2 : t2 = t
    · subst ht2
      rcases hinv with ⟨hc, h0⟩ | ⟨hc, h1⟩
      · have hstep := fetch_replies_ok client st ch t2 ms hc hk
        have hnext := ih
          { st with message_cache := (t2, expectedReplies ms) :: st.message_cache,
                    replies_calls := st.replies_calls ++ [t2] }
          (Or.inr ⟨by simp [dict_get], by simp [countKey_append, countKey, h0]⟩)
        refine ⟨?_, ?_⟩
        · simpa [run_reply_lookups, hstep] using hnext.1
        · intro v hv
          simp only [run_reply_lookups, hstep, resultsFor, if_pos rfl] at hv
          rcases List.mem_cons.mp hv with hv1 | hv2
          · exact hv1
          · exact hnext.2 v hv2
      · have hstep := fetch_replies_cached client st ch t2 (expectedReplies ms) hc
        have hnext := ih st (Or.inr ⟨hc, h1⟩)
        refine ⟨?_, ?_⟩
        · simpa [run_reply_lookups, hstep] using hnext.1
        · intro v hv
          simp only [run_reply_lookups, hstep, resultsFor, if_pos rfl] at hv
          rcases List.mem_cons.mp hv with hv1 | hv2
          · exact hv1
          · exact hnext.2 v hv2
    · have hother := fetch_replies_other client st ch t t2 ht2
      have hnext := ih (fetch_replies client st ch t2).2 (by
        rcases hinv with ⟨hc, h0⟩ | ⟨hc, h1⟩
        · exact Or.inl ⟨hother.1.trans hc, hother.2.trans h0⟩
        · exact Or.inr ⟨hother.1.trans hc, hother.2.trans h1⟩)
      refine ⟨?_, ?_⟩
      · simpa [run_reply_lookups] using hnext.1
      · intro v hv
        simp only [run_reply_lookups, resultsFor, if_neg ht2] at hv
        exact hnext.2 v hv

/-! Claim theorems about the caches, error handling and filtering. -/

/-- C1 as stated is false: a failed lookup is not cached, so a run that
calls resolve twice for the same key with a failing client issues two
remote calls for that key, both for the identity cache and for the reply
cache.  The ghost call logs record one entry per remote call actually
issued; at this concrete input, each log counts the key twice. -/
theorem c1_counterexample :
    ¬ (countKey ("U1".toList) (run_user_lookups failUserClient initState
        ["U1".toList, "U1".toList]).2.users_info_calls ≤ 1)
    ∧ ¬ (countKey ("11.0".toList) (run_reply_lookups failRepClient ("C0".toList)
        initState ["11.0".toList, "11.0".toList]).2.replies_calls ≤ 1) := by
  decide

/-- C1 amended: at most one successful remote lookup is performed per
distinct key per run.  Whenever the remote lookup for a key succeeds, a
run issuing any sequence of resolve calls performs the remote call for
that key at most once, and every resolve call for that key returns the one
resolved value (the derived display name, respectively the filtered reply
list).  When the lookup fails the result is not cached and a later call
for that key may retry the remote lookup. -/
theorem c1_amended_at_most_one_remote (uclient : Str → Except SlackApiError SlackUser)
    (rclient : Str → Str → Except SlackApiError (List Message)) (ch : Str)
    (ks ts : List Str) (k t : Str) (u : SlackUser) (ms : List Message)
    (hu : uclient k = Except.ok u) (hr : rclient ch t = Except.ok ms) :
    (countKey k (run_user_lookups uclient initState ks).2.users_info_calls ≤ 1
      ∧ ∀ v ∈ resultsFor k ks (run_user_lookups uclient initState ks).1,
          v = expectedName u)
    ∧ (countKey t (run_reply_lookups rclient ch initState ts).2.replies_calls ≤ 1
      ∧ ∀ v ∈ resultsFor t ts (run_reply_lookups rclient ch initState ts).1,
          v = expectedReplies ms) :=
  ⟨run_user_invariant uclient k u hu ks initState (Or.inl ⟨rfl, rfl⟩),
    run_reply_invariant rclient ch t ms hr ts initState (Or.inl ⟨rfl, rfl⟩)⟩

/-- Witness for the amended C1: two interleaved resolve sequences with a
succeeding client issue at most one remote call for the repeated key and
return its resolved value each time. -/
theorem c1_amended_witness :
    (countKey ("U1".toList) (run_user_lookups sampleUserOkClient initState
        ["U1".toList, "U2".toList, "U1".toList]).2.users_info_calls ≤ 1
      ∧ ∀ v ∈ resultsFor ("U1".toList) ["U1".toList, "U2".toList, "U1".toList]
          (run_user_lookups sampleUserOkClient initState
            ["U1".toList, "U2".toList, "U1".toList]).1, v = expectedName sampleUser)
    ∧ (countKey ("100.1".toList) (run_reply_lookups sampleRepClient ("C0".toList)
        initState ["100.1".toList, "100.1".toList]).2.replies_calls ≤ 1
      ∧ ∀ v ∈ resultsFor ("100.1".toList) ["100.1".toList, "100.1".toList]
          (run_reply_lookups sampleRepClient ("C0".toList) initState
            ["100.1".toList, "100.1".toList]).1,
          v = expectedReplies [sampleParent, sampleReply, sampleSystem]) :=
  c1_amended_at_most_one_remote sampleUserOkClient sampleRepClient ("C0".toList)
    ["U1".toList, "U2".toList, "U1".toList] ["100.1".toList, "100.1".toList]
    ("U1".toList) ("100.1".toList) sampleUser [sampleParent, sampleReply, sampleSystem]
    rfl rfl

/-- C2: when the remote lookup raises the platform API error and the key is
not already cached, resolve returns the sentinel — "Unknown User" for a
user-identity lookup, the empty list for a thread-reply lookup — instead of
propagating the error. -/
theorem c2_error_sentinel (uclient : Str → Except SlackApiError SlackUser)
    (rclient : Str → Str → Except SlackApiError (List Message))
    (s1 s2 : ExporterState) (k ch t : Str)
    (hu : uclient k = Except.error SlackApiError.mk)
    (hr : rclient ch t = Except.error SlackApiError.mk)
    (hcu : dict_get k s1.user_cache = none)
    (hct : dict_get t s2.message_cache = none) :
    (get_user_info uclient s1 k).1 = some ("Unknown User".toList)
      ∧ (fetch_replies rclient s2 ch t).1 = [] := by
  constructor
  · simp [get_user_info, hcu, hu]
  · simp [fetch_replies, hct, hr]

/-- Witness for C2 with failing clients on the empty caches. -/
theorem c2_witness :
    (get_user_info failUserClient initState ("U9".toList)).1
        = some ("Unknown User".toList)
      ∧ (fetch_replies failRepClient initState ("C0".toList) ("42.0".toList)).1 = [] :=
  c2_error_sentinel failUserClient failRepClient initState initState
    ("U9".toList) ("C0".toList) ("42.0".toList) rfl rfl rfl rfl

/-- C10: on a successful history fetch every returned message is free of a
subtype and comes from the fetched page, and on a successful
(not-yet-cached) reply fetch every returned reply is free of a subtype and
the returned list is a sublist of the fetched messages with the first one
(the thread parent) removed, so the parent never appears among its own
replies. -/
theorem c10_subtype_and_parent_excluded
    (hclient : Str → Nat → Except SlackApiError (List Message))
    (rclient : Str → Str → Except SlackApiError (List Message))
    (st : ExporterState) (ch t : Str) (lim : Nat) (msgs rmsgs : List Message)
    (hh : hclient ch lim = Except.ok msgs) (hr : rclient ch t = Except.ok rmsgs)
    (hc : dict_get t st.message_cache = none) :
    (∀ m ∈ fetch_channel_messages hclient ch lim, m.subtype = none ∧ m ∈ msgs)
    ∧ (∀ m ∈ (fetch_replies rclient st ch t).1, m.subtype = none)
    ∧ (fetch_replies rclient st ch t).1.Sublist (rmsgs.drop 1) := by
  refine ⟨?_, ?_, ?_⟩
  · intro m hm
    simp only [fetch_channel_messages, hh, List.mem_filter] at hm
    exact ⟨Option.isNone_iff_eq_none.mp hm.2, hm.1⟩
  · intro m hm
    simp only [fetch_replies, hc, hr, List.mem_filter] at hm
    exact Option.isNone_iff_eq_none.mp hm.2
  · simp only [fetch_replies, hc, hr]
    exact List.filter_sublist _

/-- Witness for C10 with concrete successful clients: the history page
contains a system message that is filtered out, and the reply fetch drops
the parent and the system message. -/
theorem c10_witness :
    (∀ m ∈ fetch_channel_messages sampleHistClient ("C0".toList) 1000,
        m.subtype = none ∧ m ∈ [sampleSystem, sampleReply, sampleParent])
    ∧ (∀ m ∈ (fetch_replies sampleRepClient initState ("C0".toList) ("100.1".toList)).1,
        m.subtype = none)
    ∧ (fetch_replies sampleRepClient initState ("C0".toList) ("100.1".toList)).1.Sublist
        ([sampleParent, sampleReply, sampleSystem].drop 1) :=
  c10_subtype_and_parent_excluded sampleHistClient sampleRepClient initState
    ("C0".toList) ("100.1".toList) 1000 [sampleSystem, sampleReply, sampleParent]
    [sampleParent, sampleReply, sampleSystem] rfl rfl rfl

/-- C7 as stated is false: the sanitization does not keep exactly the
allowed characters, because str.rstrip additionally removes trailing
whitespace.  On the name "abc " all four characters are allowed, yet the
trailing space is removed. -/
theorem c7_counterexample :
    sanitized_conversation_name ("abc ".toList) ≠ ("abc ".toList).filter keepChar := by
  decide

/-- C7 amended: the sanitization keeps only characters that are
alphanumeric, space, hyphen or underscore and removes every other
character, except that it additionally strips trailing whitespace: the
result consists only of allowed characters, and it is the character
filter of the name with some all-whitespace suffix removed. -/
theorem c7_sanitize_amended (name : Str) :
    (∀ c ∈ sanitized_conversation_name name, keepChar c = true)
    ∧ ∃ ws : Str, name.filter keepChar = sanitized_conversation_name name ++ ws
        ∧ ∀ c ∈ ws, c.isWhitespace = true := by
  constructor
  · intro c hc
    have h1 : c ∈ (name.filter keepChar).reverse.dropWhile Char.isWhitespace := by
      simpa [sanitized_conversation_name, rstrip] using hc
    have h2 : c ∈ (name.filter keepChar).reverse :=
      (List.dropWhile_sublist _).subset h1
    have h3 : c ∈ name.filter keepChar := by simpa using h2
    exact (List.mem_filter.mp h3).2
  · refine ⟨((name.filter keepChar).reverse.takeWhile Char.isWhitespace).reverse, ?_, ?_⟩
    · show name.filter keepChar =
        ((name.filter keepChar).reverse.dropWhile Char.isWhitespace).reverse ++
          ((name.filter keepChar).reverse.takeWhile Char.isWhitespace).reverse
      conv_lhs =>
        rw [← List.reverse_reverse (name.filter keepChar),
          ← List.takeWhile_append_dropWhile (p := Char.isWhitespace)
            (l := (name.filter keepChar).reverse)]
      rw [List.reverse_append]
    · intro c hc
      have hm : c ∈ (name.filter keepChar).reverse.takeWhile Char.isWhitespace := by
        simpa using hc
      exact List.mem_takeWhile_imp hm

/-- C8: the channel dispatch of main depends only on the argument's leading
character: an argument is fetched by id exactly when its first character is
C or D, and two arguments sharing a first character always take the same
lookup path. -/
theorem c8_dispatch_first_char (c : Char) (rest rest2 : Str) :
    (main_channel_dispatch (c :: rest) = FetchPath.byId ↔ c = 'C' ∨ c = 'D')
    ∧ main_channel_dispatch (c :: rest) = main_channel_dispatch (c :: rest2) := by
  have hC : ("C".toList : Str) = ['C'] := rfl
  have hD : ("D".toList : Str) = ['D'] := rfl
  by_cases h1 : c = 'C'
  · subst h1
    constructor
    · simp [main_channel_dispatch, startswith, hC, hD, List.isPrefixOf]
    · simp [main_channel_dispatch, startswith, hC, hD, List.isPrefixOf]
  · by_cases h2 : c = 'D'
    · subst h2
      constructor
      · simp [main_channel_dispatch, startswith, hC, hD, List.isPrefixOf]
      · simp [main_channel_dispatch, startswith, hC, hD, List.isPrefixOf]
    · constructor
      · simp [main_channel_dispatch, startswith, hC, hD, List.isPrefixOf, h1, h2,
          Ne.symm h1, Ne.symm h2]
      · simp [main_channel_dispatch, startswith, hC, hD, List.isPrefixOf,
          Ne.symm h1, Ne.symm h2]
